import Mathlib

/-!
Verification of the Si5338 clock-generator driver (drivers/clk/clk-si5338.c).

This file gives a shallow embedding of the driver's register field codec,
rational-synthesis math, divider-selection loops, parameter-commit path and
bring-up polling loop, and proves properties about them.  Machine integers
are modelled as Nat with explicit `% 2^32` / `% 2^64` where C truncation or
wrap-around matters.  Register I/O is modelled by an explicit bus record
whose operations return a new state plus a C-style return code (0 for
success, negative for failure), mirroring regmap_write / regmap_update_bits
/ regmap_read.

C loops whose bound is data-dependent are written with an explicit fuel
argument chosen at least as large as the loop's real iteration bound, so
every definition is executable by kernel reduction; each such definition
documents the bound.
-/

/-! ## Bit helpers

The driver computes, for an 8-bit register mask, the index of its lowest set
bit (`while (!((1 << nshift) & mask)) nshift++;`) and the length of the
contiguous run of set bits starting there
(`while ((1 << (nshift + nbits)) & mask) nbits++;`).  Masks are u8, so both
loops take at most 8 steps; fuel 8 captures that.  For mask = 0 the first C
loop would not terminate; all callers guard with `if (mask)`.
-/

/-- Index of the lowest set bit of `m` (fuel-bounded scan, as in the C
`nshift` loop; masks are 8-bit so fuel 8 suffices). -/
def lowBitF : Nat → Nat → Nat
  | 0, _ => 0
  | fuel + 1, m => if m % 2 = 1 then 0 else 1 + lowBitF fuel (m / 2)

/-- Number of consecutive set bits of `m` starting at bit 0 (fuel-bounded,
as in the C `nbits` loop counted from the lowest set bit). -/
def consecOnesF : Nat → Nat → Nat
  | 0, _ => 0
  | fuel + 1, m => if m % 2 = 1 then 1 + consecOnesF fuel (m / 2) else 0

def lowBit (m : Nat) : Nat := lowBitF 8 m

def consecOnes (m : Nat) : Nat := consecOnesF 8 m

/-! ## Register bus model

`Bus` abstracts the regmap collaborator: each operation returns the new
store state and a C return code (`0` ok, `< 0` failure).  `read` returns
(return code, byte read). -/

structure Bus (σ : Type) where
  write : σ → Nat → Nat → σ × Int
  update_bits : σ → Nat → Nat → Nat → σ × Int
  read : σ → Nat → Int × Nat

/-- si5338_reg_write: full-byte write when the mask is all ones, otherwise a
read-modify-write via regmap_update_bits. -/
def si5338_reg_write {σ : Type} (B : Bus σ) (s : σ) (reg val mask : Nat) :
    σ × Int :=
  if mask ≠ 255 then B.update_bits s reg mask val else B.write s reg val

/-- write_field: single-register field write.  The awe word packs the
register address in bits 8.. and the 8-bit mask in bits 0..7.  A zero mask
means no write. -/
def write_field {σ : Type} (B : Bus σ) (data : Nat) (awe : Nat) (s : σ) :
    σ × Int :=
  let reg := awe / 256 % 65536
  let mask := awe % 256
  if mask ≠ 0 then
    let nshift := lowBit mask
    let reg_data := data % 256 * 2 ^ nshift % 256
    let r := si5338_reg_write B s reg reg_data mask
    (r.1, if r.2 < 0 then r.2 else 0)
  else (s, 0)

/-- write_multireg64: write a value split across a 0-terminated list of
(register, mask) awe words, least-significant segment first.  The list here
holds the entries before the 0 terminator.  For each segment the next
`nbits` low bits of `data` are shifted into place and written; a negative
return code aborts the sequence immediately. -/
def write_multireg64 {σ : Type} (B : Bus σ) (data : Nat) (awe : List Nat)
    (s : σ) : σ × Int :=
  match awe with
  | [] => (s, 0)
  | w :: rest =>
    let reg := w / 256 % 65536
    let mask := w % 256
    if mask ≠ 0 then
      let nshift := lowBit mask
      let nbits := consecOnes (mask / 2 ^ nshift)
      let reg_data := data % 256 * 2 ^ nshift % 256
      let r := si5338_reg_write B s reg reg_data mask
      if r.2 < 0 then (r.1, r.2)
      else write_multireg64 B (data / 2 ^ nbits) rest r.1
    else write_multireg64 B data rest s

/-- read_multireg64: rebuild the value from the same segment list, ORing
each extracted segment at the running bit offset.  Returns (return code,
value); on failure the partially accumulated value is what the C code has
stored through the out pointer so far. -/
def read_multireg64_go {σ : Type} (B : Bus σ) (s : σ) (awe : List Nat)
    (acc full_shift : Nat) : Int × Nat :=
  match awe with
  | [] => (0, acc)
  | w :: rest =>
    let reg := w / 256 % 65536
    let mask := w % 256
    if mask ≠ 0 then
      let nshift := lowBit mask
      let nbits := consecOnes (mask / 2 ^ nshift)
      let r := B.read s reg
      if r.1 < 0 then (r.1, acc)
      else
        read_multireg64_go B s rest
          (acc ||| (r.2 &&& mask) / 2 ^ nshift * 2 ^ full_shift)
          (full_shift + nbits)
    else read_multireg64_go B s rest acc full_shift

def read_multireg64 {σ : Type} (B : Bus σ) (awe : List Nat) (s : σ) :
    Int × Nat :=
  read_multireg64_go B s awe 0 0

/-- A byte store where reads return previously written values: writes store
the byte, update_bits performs (old AND NOT mask) OR (val AND mask), reads
return the stored byte.  No operation fails. -/
def pureBus : Bus (Nat → Nat) where
  write s reg val := (fun r => if r = reg then val % 256 else s r, 0)
  update_bits s reg mask val :=
    (fun r => if r = reg then (s reg % 256 &&& (255 ^^^ mask)) ||| (val &&& mask)
              else s r, 0)
  read s reg := (0, s reg % 256)

/-- Instrumented bus: the state is the journal of performed writes
(register, value, mask); the k-th write attempt (1-based) fails with code
`e` and journals nothing; `k = 0` means no failure is injected.  Reads
return 0. -/
def journalBus (k : Nat) (e : Int) : Bus (List (Nat × Nat × Nat)) where
  write s reg val :=
    if s.length + 1 = k then (s, e) else (s ++ [(reg, val, 255)], 0)
  update_bits s reg mask val :=
    if s.length + 1 = k then (s, e) else (s ++ [(reg, val, mask)], 0)
  read _ _ := (0, 0)

/-- Ghost description of the register writes a fault-free run of
write_multireg64 performs, in order: mirrors the recursion of
write_multireg64. -/
def wlist (data : Nat) : List Nat → List (Nat × Nat × Nat)
  | [] => []
  | w :: rest =>
    let reg := w / 256 % 65536
    let mask := w % 256
    if mask ≠ 0 then
      let nshift := lowBit mask
      let nbits := consecOnes (mask / 2 ^ nshift)
      let reg_data := data % 256 * 2 ^ nshift % 256
      (reg, reg_data, mask) :: wlist (data / 2 ^ nbits) rest
    else wlist data rest

/-! ## Rational synthesis (ms_to_p / p_to_ms / cal_ms_p) -/

/-- The precision-trim loop at the head of ms_to_p:
`while (ms_denom >= (1<<30) || !((ms_denom | ms_num) & 1)) { halve both }`.
Operands are u64, so at most 34 halvings reach c < 2^30 and at most 30 more
reach an odd b or c; fuel 64 covers every u64 input.  (For b = c = 0 the C
loop would not terminate; ms_to_p's zero fix-up below makes that state
unreachable from the driver's callers.) -/
def ms_trimF : Nat → Nat → Nat → Nat × Nat
  | 0, b, c => (b, c)
  | fuel + 1, b, c =>
    if 2 ^ 30 ≤ c ∨ (b % 2 = 0 ∧ c % 2 = 0) then ms_trimF fuel (b / 2) (c / 2)
    else (b, c)

def ms_trim (b c : Nat) : Nat × Nat := ms_trimF 64 b c

/-- ms_to_p: encode ratio a + b/c into the chip's (p1,p2,p3).  All
arithmetic is u64 (`% 2^64`), the stored parameters are u32 (`% 2^32`);
`x - 512` on u64 wraps, hence the `+ (2^64 - 512)` before the reduction. -/
def ms_to_p (ms : Nat × Nat × Nat) : Nat × Nat × Nat :=
  let t := ms_trim ms.2.1 ms.2.2
  let num := if t.1 = 0 ∨ t.2 = 0 then 0 else t.1
  let den := if t.1 = 0 ∨ t.2 = 0 then 1 else t.2
  let d := (ms.1 * den + num) * 128 % 2 ^ 64
  let p0 := (d / den + (2 ^ 64 - 512)) % 2 ^ 64 % 2 ^ 32
  let d2 := num * 128 % 2 ^ 64
  let p1 := (d2 - den * (d2 / den)) % 2 ^ 32
  let p2 := den % 2 ^ 32
  (p0, p1, p2)

/-- p_to_ms: decode (p1,p2,p3) back to a ratio; the all-zero triple is the
device's uninitialized state and decodes to 0 + 0/1. -/
def p_to_ms (p : Nat × Nat × Nat) : Nat × Nat × Nat :=
  if p.1 = 0 ∧ p.2.1 = 0 ∧ p.2.2 = 0 then (0, 0, 1)
  else
    let c := p.2.2
    let b := (c * (p.1 % 128) + p.2.1) % 2 ^ 64 / 128
    let a := p.1 / 128 + 4
    (a, b, c)

/-- The Euclid loop of remove_common_factor: `r = b; while (r > 1) { r = a
mod b; if (r == 0) return divisor b; a = b; b = r; }`.  Returns the divisor
found, or 1 when the loop exits without dividing.  The loop is entered with
a = max, b = min; the second argument strictly decreases, and for u64
operands the loop runs far fewer than 128 iterations (Fibonacci bound
around 93), so fuel 128 covers every input. -/
def rcf_findF : Nat → Nat → Nat → Nat
  | 0, _, _ => 1
  | fuel + 1, a, b =>
    if b ≤ 1 then 1
    else if a % b = 0 then b
    else rcf_findF fuel b (a % b)

def rcf_find (a b : Nat) : Nat := rcf_findF 128 a b

/-- remove_common_factor on the pair (numerator, denominator): zero
denominator is left alone (the C code only reports -1), a zero numerator
forces (0, 1), otherwise both are divided by the common factor the Euclid
loop finds (dividing by 1 when none is found leaves them unchanged, as in
the C early return). -/
def remove_common_factor (num den : Nat) : Nat × Nat :=
  if den = 0 then (num, den)
  else if num = 0 then (0, 1)
  else
    let g := rcf_find (max num den) (min num den)
    (num / g, den / g)

/-- The trim loop of cal_ms_p: `while (ms[2] >= (1<<30)) { halve both }`;
at most 34 iterations for a u64 denominator, fuel 64 covers it. -/
def cal_trimF : Nat → Nat → Nat → Nat × Nat
  | 0, b, c => (b, c)
  | fuel + 1, b, c =>
    if 2 ^ 30 ≤ c then cal_trimF fuel (b / 2) (c / 2) else (b, c)

def cal_trim (b c : Nat) : Nat × Nat := cal_trimF 64 b c

/-- The ratio cal_ms_p assembles before encoding: integer part
numerator/denominator (floor), remainder reduced by trim and GCD, and the
integer part clamped into [MSINT_MIN, MSINT_MAX] = [4, 567] with the
forbidden values 5 and 7 bumped to 6 and 8. -/
def cal_ms (numerator denominator : Nat) : Nat × Nat × Nat :=
  let ms0 := numerator / denominator
  let ms1 := numerator - ms0 * denominator
  let t := cal_trim ms1 denominator
  let r := remove_common_factor t.1 t.2
  ((if ms0 < 4 then 4
    else if ms0 = 5 ∨ ms0 = 7 then ms0 + 1
    else if ms0 > 567 then 567
    else ms0), r.1, r.2)

/-- cal_ms_p: divider calculation for a requested numerator/denominator,
producing the chip parameter triple. -/
def cal_ms_p (numerator denominator : Nat) : Nat × Nat × Nat :=
  ms_to_p (cal_ms numerator denominator)

/-! ## Multisynth / PLL parameter commit (set_ms_p) and set_rate -/

/-- The high-speed-bit awe words AWE_MS0_HS..AWE_MS3_HS.  The C array has
exactly 4 entries but set_ms_p accepts channel 4 (MSN): awe_ms_hs[4] is an
out-of-bounds read in the C source; it is modelled here as the awe word 0,
which write_field treats as "no write". -/
def awe_ms_hs : Nat → Nat
  | 0 => 0x3310
  | 1 => 0x3320
  | 2 => 0x3340
  | 3 => 0x3380
  | _ => 0

/-- awe_msx[chn][param]: the 0-terminated register/mask lists for P1, P2,
P3 of MS0..MS3 and MSN, with the terminating zeros dropped. -/
def awe_msx : Nat → Nat → List Nat
  | 0, 0 => [0x35ff, 0x36ff, 0x3703]
  | 0, 1 => [0x37fc, 0x38ff, 0x39ff, 0x3aff]
  | 0, _ => [0x3bff, 0x3cff, 0x3dff, 0x3e3f]
  | 1, 0 => [0x40ff, 0x41ff, 0x4203]
  | 1, 1 => [0x42fc, 0x43ff, 0x44ff, 0x45ff]
  | 1, _ => [0x46ff, 0x47ff, 0x48ff, 0x493f]
  | 2, 0 => [0x4bff, 0x4cff, 0x4d03]
  | 2, 1 => [0x4dfc, 0x4eff, 0x4fff, 0x50ff]
  | 2, _ => [0x51ff, 0x52ff, 0x53ff, 0x543f]
  | 3, 0 => [0x56ff, 0x57ff, 0x5803]
  | 3, 1 => [0x58fc, 0x59ff, 0x5aff, 0x5bff]
  | 3, _ => [0x5cff, 0x5dff, 0x5eff, 0x5f3f]
  | _, 0 => [0x61ff, 0x62ff, 0x6303]
  | _, 1 => [0x63fc, 0x64ff, 0x65ff, 0x66ff]
  | _, _ => [0x67ff, 0x68ff, 0x69ff, 0x6a3f]

/-- set_ms_p: commit a parameter triple for channel chn (0..3 = MS0..MS3,
4 = MSN).  When p1 < 512 (ratio below 8) the parameters are replaced in
place by the high-speed integer-divider encoding (p1 = 0 for ratio 4 /
p1 = 256 for ratio 6, p2 = 0, p3 = 1) and the channel's high-speed bit is
written as 1; otherwise the triple is written unmodified with the bit 0.
Returns the (possibly substituted) triple — the C code mutates the caller's
array — the final bus state, and the return code. -/
def set_ms_p {σ : Type} (B : Bus σ) (p : Nat × Nat × Nat) (chn : Nat)
    (s : σ) : (Nat × Nat × Nat) × σ × Int :=
  if chn > 4 then (p, s, -22)
  else
    let hs : Nat := if p.1 < 512 then 1 else 0
    let p := if p.1 < 512 then ((if p.1 < 128 then 0 else 256), 0, 1) else p
    let r0 := write_field B hs (awe_ms_hs chn) s
    if r0.2 < 0 then (p, r0.1, r0.2)
    else
      let r1 := write_multireg64 B p.1 (awe_msx chn 0) r0.1
      if r1.2 < 0 then (p, r1.1, r1.2)
      else
        let r2 := write_multireg64 B p.2.1 (awe_msx chn 1) r1.1
        if r2.2 < 0 then (p, r2.1, r2.2)
        else
          let r3 := write_multireg64 B p.2.2 (awe_msx chn 2) r2.1
          if r3.2 < 0 then (p, r3.1, r3.2) else (p, r3.1, 0)

/-- Cached hardware parameters of a clock node: the (p1,p2,p3) triple and
the valid flag. -/
structure HwParams where
  p : Nat × Nat × Nat
  valid : Bool
deriving DecidableEq

def FVCOMIN : Nat := 2200000000

def FVCOMAX : Nat := 2840000000

def MSINT_MIN : Nat := 4

def MSINT_MAX : Nat := 567

/-- si5338_pll_set_rate: clamp the requested VCO rate into
[FVCOMIN, FVCOMAX], compute the feedback parameters with cal_ms_p, mark the
cached parameters valid, then commit them to channel 4 (MSN).  Note the
valid flag is set before the hardware write. -/
def si5338_pll_set_rate {σ : Type} (B : Bus σ) (params : HwParams)
    (rate parent_rate : Nat) (s : σ) : HwParams × σ × Int :=
  let rate := if rate < FVCOMIN then FVCOMIN
              else if rate > FVCOMAX then FVCOMAX else rate
  let p := cal_ms_p rate parent_rate
  let r := set_ms_p B p 4 s
  (⟨r.1, true⟩, r.2.1, r.2.2)

/-- si5338_msynth_set_rate: a zero request becomes the lowest achievable
rate ceil(parent / MSINT_MAX); parameters are computed with cal_ms_p,
marked valid, then committed to the node's channel.  As in the PLL path the
valid flag is set before the hardware write. -/
def si5338_msynth_set_rate {σ : Type} (B : Bus σ) (params : HwParams)
    (num : Nat) (rate parent_rate : Nat) (s : σ) : HwParams × σ × Int :=
  let rate := if rate = 0 then (parent_rate + MSINT_MAX - 1) / MSINT_MAX
              else rate
  let p := cal_ms_p parent_rate rate
  let r := set_ms_p B p num s
  (⟨r.1, true⟩, r.2.1, r.2.2)

/-- The non-master branch of si5338_msynth_round_rate: compute the direct
ratio parent/rate, reduce the remainder, and return the achievable rate
plus the parameters cal_ms_p derives for it.  The C branch contains
`if (ms[0] == 5 || ms[0] == 7) out_div++;` which increments the dead local
out_div left over from the master branch and has no effect on ms or on the
returned rate; it is therefore a no-op here. -/
def msynth_round_rate_nonmaster (rate parent_rate : Nat) :
    Except Int (Nat × (Nat × Nat × Nat)) :=
  if rate = 0 then .error (-22)
  else
    let ms1 := parent_rate
    let ms2 := rate
    let ms0 := ms1 / ms2
    let ms1 := ms1 - ms0 * ms2
    let r := remove_common_factor ms1 ms2
    let rate := parent_rate * r.2 / (r.1 + ms0 * r.2)
    .ok (rate, cal_ms_p parent_rate rate)

/-! ## Output (clkout) post-divider selection -/

/-- The kernel abs() macro applied to the difference of two unsigned longs:
the u64 subtraction wraps modulo 2^64 and abs() reinterprets the wrapped
value as a signed 64-bit quantity, so for a wrapped difference d at or
above 2^63 the result is 2^64 - d (abs() of the wrapped 2^64 - 1 is 1; at
the boundary d = 2^63, where the C negation overflows, the value wraps back
to 2^63, which again equals 2^64 - d). -/
def absDiff64 (a b : Nat) : Nat :=
  let d := (a % 2 ^ 64 + (2 ^ 64 - b % 2 ^ 64)) % 2 ^ 64
  if d < 2 ^ 63 then d else 2 ^ 64 - d

/-- The mathematical absolute error, used only to state the minimization
property; it agrees with absDiff64 exactly when both operands are below
2^63 (lemma absDiff64_eq below). -/
def absErr (a b : Nat) : Nat := ((a : Int) - b).natAbs

/-- The do-while halving loop shared by si5338_clkout_set_rate and the
non-master branch of si5338_clkout_round_rate: halve the candidate parent
rate and double r_div while the error to the target strictly improves and
r_div stays below 32.  r_div doubles from 1 with guard r_div < 32, so the
loop body runs at most 5 times; fuel 5 is exact and is never exhausted from
the entry point. -/
def rdiv_loop (rate : Nat) : Nat → Nat → Nat → Nat → Nat
  | 0, _, r_div, _ => r_div
  | fuel + 1, new_rate, r_div, prev_err =>
    let new_rate' := new_rate / 2
    let r_div' := r_div * 2
    let new_err := absDiff64 new_rate' rate
    if new_err < prev_err ∧ r_div' < 32 then
      rdiv_loop rate fuel new_rate' r_div' new_err
    else r_div'

/-- The post-divider si5338_clkout_set_rate programs (and the one the
non-master round_rate branch reports): run the halving loop from r_div = 1,
then halve once to undo the last speculative doubling. -/
def si5338_clkout_rdiv (parent_rate rate : Nat) : Nat :=
  rdiv_loop rate 5 parent_rate 1 (absDiff64 parent_rate rate) / 2

/-- FVCOMAX / MSINT_MAX, the lowest multisynth output the master branch of
si5338_clkout_round_rate scales up to. -/
def scaled_max : Nat := FVCOMAX / MSINT_MAX

/-- The doubling loop of the master branch of si5338_clkout_round_rate:
`while (r_div < 32 && out_freq_scaled < scaled_max) { double both }`; at
most 5 iterations since r_div doubles from 1. -/
def rdiv_master_loop : Nat → Nat → Nat → Nat × Nat
  | 0, out, r_div => (out, r_div)
  | fuel + 1, out, r_div =>
    if r_div < 32 ∧ out < scaled_max then
      rdiv_master_loop fuel (out * 2) (r_div * 2)
    else (out, r_div)

/-- Master branch of si5338_clkout_round_rate: returns (r_div, the parent
rate requested from the multisynth). -/
def si5338_clkout_round_master (rate : Nat) : Nat × Nat :=
  let m := rdiv_master_loop 5 rate 1
  if m.1 < scaled_max then (32, scaled_max) else (m.2, m.1)

/-! ## post_init polling loop -/

def INIT_TIMEOUT : Nat := 10

/-- One polling phase of post_init:
`for (i = 0; i < timeout; i++) { rc = get_status(); if (!(rc & mask))
break; msleep(100); } if (i >= timeout) return -ETIMEDOUT;`.
`status n` is the value returned by the (n+1)-th status read; the fuel
argument is the remaining iteration budget timeout - i.  Returns the number
of reads performed and ok on break, or -ETIMEDOUT (-110) when the budget is
exhausted.  The 100 ms sleeps between reads are real time and outside this
model. -/
def poll_go (status : Nat → Nat) (mask : Nat) : Nat → Nat → Nat × Except Int Unit
  | i, 0 => (i, .error (-110))
  | i, fuel + 1 =>
    if status i &&& mask = 0 then (i + 1, .ok ())
    else poll_go status mask (i + 1) fuel

/-- A full polling phase of post_init: INIT_TIMEOUT = 10 reads maximum. -/
def post_init_poll (status : Nat → Nat) (mask : Nat) : Nat × Except Int Unit :=
  poll_go status mask 0 INIT_TIMEOUT

/-! ## Lemmas about the polling loop -/

lemma poll_go_break (status : Nat → Nat) (mask : Nat) :
    ∀ (fuel i k : Nat), i ≤ k → k < i + fuel →
    (∀ j, i ≤ j → j < k → status j &&& mask ≠ 0) →
    status k &&& mask = 0 →
    poll_go status mask i fuel = (k + 1, .ok ()) := by
  intro fuel
  induction fuel with
  | zero => intro i k h1 h2 _ _; omega
  | succ f ih =>
    intro i k h1 h2 hne hk
    simp only [poll_go]
    by_cases hik : i = k
    · subst hik; rw [if_pos hk]
    · rw [if_neg (hne i le_rfl (by omega))]
      exact ih (i + 1) k (by omega) (by omega)
        (fun j hj1 hj2 => hne j (by omega) hj2) hk

lemma poll_go_timeout (status : Nat → Nat) (mask : Nat) :
    ∀ (fuel i : Nat),
    (∀ j, i ≤ j → j < i + fuel → status j &&& mask ≠ 0) →
    poll_go status mask i fuel = (i + fuel, .error (-110)) := by
  intro fuel
  induction fuel with
  | zero => intro i _; simp [poll_go]
  | succ f ih =>
    intro i h
    simp only [poll_go]
    rw [if_neg (h i le_rfl (by omega))]
    rw [ih (i + 1) (fun j h1 h2 => h j (by omega) (by omega))]
    have : i + 1 + f = i + (f + 1) := by omega
    rw [this]

/-- C5: in each polling phase of post_init the status register is read at
most INIT_TIMEOUT = 10 times; if the monitored bits are clear on the k-th
read (k ≤ 10) the phase succeeds after exactly k reads, and if they never
clear within 10 reads the phase fails with -ETIMEDOUT having performed
exactly 10 reads. -/
theorem post_init_poll_spec (status : Nat → Nat) (mask k : Nat)
    (hk1 : 1 ≤ k) (hk : k ≤ INIT_TIMEOUT) :
    ((∀ j, j < k - 1 → status j &&& mask ≠ 0) →
       status (k - 1) &&& mask = 0 →
       post_init_poll status mask = (k, .ok ())) ∧
    ((∀ j, j < INIT_TIMEOUT → status j &&& mask ≠ 0) →
       post_init_poll status mask = (INIT_TIMEOUT, .error (-110))) := by
  constructor
  · intro h1 h2
    have hcall := poll_go_break status mask INIT_TIMEOUT 0 (k - 1)
      (by omega) (by simp only [INIT_TIMEOUT] at *; omega)
      (fun j _ hj => h1 j hj) h2
    have hk' : k - 1 + 1 = k := by omega
    rw [post_init_poll, hcall, hk']
  · intro h
    have hcall := poll_go_timeout status mask INIT_TIMEOUT 0
      (fun j _ hj => h j (by omega))
    rw [post_init_poll, hcall, Nat.zero_add]

/-- Witness for C5: a status sequence whose bits clear on the third read
succeeds with exactly 3 reads; one whose bits never clear times out after
exactly 10 reads. -/
theorem post_init_poll_spec_witness :
    post_init_poll (fun j => if j < 2 then 1 else 0) 1 = (3, .ok ()) ∧
    post_init_poll (fun _ => 1) 1 = (10, .error (-110)) := by
  constructor
  · refine (post_init_poll_spec (fun j => if j < 2 then 1 else 0) 1 3
      (by norm_num) (by norm_num [INIT_TIMEOUT])).1 ?_ ?_
    · intro j hj
      have hj2 : j < 2 := by omega
      simp [hj2, Nat.and_one_is_mod]
    · norm_num
  · exact (post_init_poll_spec (fun _ => 1) 1 1 le_rfl
      (by norm_num [INIT_TIMEOUT])).2
      (fun j _ => by simp [Nat.and_one_is_mod])

/-- C2: the divider calculation cal_ms_p always clamps the integer part of
the ratio into [4, 567], never leaves it at the forbidden values 5 or 7,
and bumps exact 5 to 6 and exact 7 to 8; it has no error path. -/
theorem cal_ms_avoids_forbidden (num den : Nat) (hden : 1 ≤ den) :
    (4 ≤ (cal_ms num den).1 ∧ (cal_ms num den).1 ≤ 567 ∧
     (cal_ms num den).1 ≠ 5 ∧ (cal_ms num den).1 ≠ 7) ∧
    (num / den = 5 → (cal_ms num den).1 = 6) ∧
    (num / den = 7 → (cal_ms num den).1 = 8) := by
  simp only [cal_ms]
  generalize num / den = n
  split_ifs <;> omega

/-- Witness for C2: numerator 22, denominator 4 has integer part 5, which
is bumped to 6. -/
theorem cal_ms_avoids_forbidden_witness :
    (1 ≤ 4) ∧
    ((4 ≤ (cal_ms 22 4).1 ∧ (cal_ms 22 4).1 ≤ 567 ∧
      (cal_ms 22 4).1 ≠ 5 ∧ (cal_ms 22 4).1 ≠ 7) ∧
     (22 / 4 = 5 → (cal_ms 22 4).1 = 6) ∧
     (22 / 4 = 7 → (cal_ms 22 4).1 = 8)) :=
  ⟨by decide, cal_ms_avoids_forbidden 22 4 (by decide)⟩

/-- C9 (code bug): in the non-master branch of si5338_msynth_round_rate
with parent rate 10 and requested rate 2 the direct ratio has the forbidden
integer part 5; the C code increments the dead local out_div instead of the
ratio and returns rate 2 = parent/5, while the parameter triple it programs
through cal_ms_p encodes divider 6 — the returned rate still corresponds to
the forbidden integer part 5. -/
theorem msynth_nonmaster_forbidden_bug :
    msynth_round_rate_nonmaster 2 10 = .ok (2, (256, 0, 1)) ∧
    10 / 2 = 5 ∧ (p_to_ms (256, 0, 1)).1 = 6 :=
  ⟨rfl, rfl, rfl⟩

/-- C4 (amended): both set_rate paths set the cached-parameter valid flag
to true unconditionally, before the hardware write; on a failed write the
flag is therefore true, not left unchanged. -/
theorem set_rate_sets_valid_unconditionally {σ : Type} (B : Bus σ)
    (params : HwParams) (num rate parent_rate : Nat) (s : σ) :
    (si5338_pll_set_rate B params rate parent_rate s).1.valid = true ∧
    (si5338_msynth_set_rate B params num rate parent_rate s).1.valid = true :=
  ⟨rfl, rfl⟩

/-- Counterexample for C4 as stated: with a bus whose first register write
fails, msynth set_rate starting from an invalid cache returns a negative
code yet leaves the valid flag true — it was not left unchanged on the
failure path. -/
theorem set_rate_valid_counterexample :
    (si5338_msynth_set_rate (journalBus 1 (-5)) ⟨(0, 0, 0), false⟩ 0 2 10
        []).2.2 < 0 ∧
    (si5338_msynth_set_rate (journalBus 1 (-5)) ⟨(0, 0, 0), false⟩ 0 2 10
        []).1.valid = true := by decide

/-! ## Lemmas about ms_to_p / p_to_ms -/

lemma ms_trim_eq_self {b c : Nat} (hc : c < 2 ^ 30)
    (hodd : b % 2 = 1 ∨ c % 2 = 1) : ms_trim b c = (b, c) := by
  rw [ms_trim, show (64 : Nat) = 63 + 1 from rfl]
  simp only [ms_trimF]
  rw [if_neg (by omega)]

/-- Value of the encoder on a ratio with a nonzero proper fraction that the
trim loop leaves alone: p1 is the biased scaled ratio, p2 the scaled
fraction remainder, p3 the denominator. -/
lemma ms_to_p_eq_pos (a b c : Nat) (ha : 4 ≤ a) (haU : a ≤ 2 ^ 25 + 3)
    (hb : 1 ≤ b) (hbc : b < c) (hc : c < 2 ^ 30)
    (hodd : b % 2 = 1 ∨ c % 2 = 1) :
    ms_to_p (a, b, c) = (a * 128 + b * 128 / c - 512, b * 128 % c, c) := by
  have hc0 : 0 < c := by omega
  have hK : b * 128 / c < 128 :=
    (Nat.div_lt_iff_lt_mul hc0).mpr (by omega : b * 128 < 128 * c)
  have hac : a * c ≤ (2 ^ 25 + 3) * (2 ^ 30 - 1) :=
    Nat.mul_le_mul haU (by omega)
  have hd64 : (a * c + b) * 128 < 2 ^ 64 := by omega
  have hdc : (a * c + b) * 128 / c = b * 128 / c + a * 128 := by
    have h1 : (a * c + b) * 128 = b * 128 + c * (a * 128) := by ring
    rw [h1, Nat.add_mul_div_left _ _ hc0]
  have htrim := ms_trim_eq_self hc hodd
  have hcond : ¬(b = 0 ∨ c = 0) := by omega
  simp only [ms_to_p, htrim, if_neg hcond]
  have hKR := Nat.div_add_mod (b * 128) c
  have hb64 : b * 128 < 2 ^ 64 := by omega
  refine Prod.ext ?_ (Prod.ext ?_ ?_)
  · show ((a * c + b) * 128 % 2 ^ 64 / c + (2 ^ 64 - 512)) % 2 ^ 64 % 2 ^ 32 =
      a * 128 + b * 128 / c - 512
    rw [Nat.mod_eq_of_lt hd64, hdc]
    generalize b * 128 / c = K at hK ⊢
    omega
  · show (b * 128 % 2 ^ 64 - c * (b * 128 % 2 ^ 64 / c)) % 2 ^ 32 =
      b * 128 % c
    rw [Nat.mod_eq_of_lt hb64]
    have hR : b * 128 % c < c := Nat.mod_lt _ hc0
    obtain ⟨P, hP⟩ : ∃ P, c * (b * 128 / c) = P := ⟨_, rfl⟩
    rw [hP] at hKR
    rw [hP]
    omega
  · show c % 2 ^ 32 = c
    exact Nat.mod_eq_of_lt (by omega)

/-- Value of the encoder on an integer ratio a + 0/1. -/
lemma ms_to_p_eq_zero (a : Nat) (ha : 4 ≤ a) (haU : a ≤ 2 ^ 25 + 3) :
    ms_to_p (a, 0, 1) = (a * 128 - 512, 0, 1) := by
  have htrim : ms_trim 0 1 = (0, 1) := rfl
  have hcond : (0 : Nat) = 0 ∨ (1 : Nat) = 0 := Or.inl rfl
  simp only [ms_to_p, htrim, if_pos hcond]
  refine Prod.ext ?_ (Prod.ext ?_ ?_)
  · show ((a * 1 + 0) * 128 % 2 ^ 64 / 1 + (2 ^ 64 - 512)) % 2 ^ 64 % 2 ^ 32 =
      a * 128 - 512
    rw [Nat.mul_one, Nat.add_zero, Nat.div_one,
      Nat.mod_eq_of_lt (show a * 128 < 2 ^ 64 by omega)]
    omega
  · show (0 * 128 % 2 ^ 64 - 1 * (0 * 128 % 2 ^ 64 / 1)) % 2 ^ 32 = 0
    norm_num
  · rfl

/-- C1 (amended): the encode/decode round trip is exact on ratios whose
integer part lies in [4, 2^25 + 3], whose proper fraction b/c has c < 2^30
with b and c not both even, and with c = 1 whenever b = 0.  (Outside this
domain the trim loop rewrites the fraction or the biased u32 p1 wraps, see
the counterexample.) -/
theorem ms_p_roundtrip (a b c : Nat) (ha : 4 ≤ a) (haU : a ≤ 2 ^ 25 + 3)
    (hbc : b < c) (hc : c < 2 ^ 30) (hodd : b % 2 = 1 ∨ c % 2 = 1)
    (hb0 : b = 0 → c = 1) :
    p_to_ms (ms_to_p (a, b, c)) = (a, b, c) := by
  by_cases hb : b = 0
  · have hc1 := hb0 hb
    subst hb; subst hc1
    rw [ms_to_p_eq_zero a ha haU]
    simp only [p_to_ms]
    rw [if_neg (fun h => absurd h.2.2 one_ne_zero)]
    refine Prod.ext ?_ (Prod.ext ?_ ?_)
    · show (a * 128 - 512) / 128 + 4 = a
      omega
    · show (1 * ((a * 128 - 512) % 128) + 0) % 2 ^ 64 / 128 = 0
      have h128 : (a * 128 - 512) % 128 = 0 := by omega
      rw [h128]
      norm_num
    · rfl
  · have hb1 : 1 ≤ b := by omega
    rw [ms_to_p_eq_pos a b c ha haU hb1 hbc hc hodd]
    have hc0 : 0 < c := by omega
    have hK : b * 128 / c < 128 :=
      (Nat.div_lt_iff_lt_mul hc0).mpr (by omega : b * 128 < 128 * c)
    have hKR := Nat.div_add_mod (b * 128) c
    simp only [p_to_ms]
    rw [if_neg (fun h => absurd h.2.2 (by omega))]
    refine Prod.ext ?_ (Prod.ext ?_ ?_)
    · show (a * 128 + b * 128 / c - 512) / 128 + 4 = a
      generalize b * 128 / c = K at hK ⊢
      omega
    · show (c * ((a * 128 + b * 128 / c - 512) % 128) + b * 128 % c) % 2 ^ 64
        / 128 = b
      have hmod : (a * 128 + b * 128 / c - 512) % 128 = b * 128 / c := by
        generalize b * 128 / c = K at hK ⊢
        omega
      rw [hmod, hKR, Nat.mod_eq_of_lt (show b * 128 < 2 ^ 64 by omega)]
      omega
    · rfl

/-- Counterexample for C1 as stated: at ratio 4 + 2/4 (a ≥ 0, 0 ≤ b < c,
1 ≤ c < 2^30) the trim loop halves the fraction while both b and c are
even, so the round trip returns 4 + 1/2, not the original triple. -/
theorem ms_p_roundtrip_counterexample :
    p_to_ms (ms_to_p (4, 2, 4)) ≠ (4, 2, 4) := by decide

/-- Witness for C1: the round trip is exact at 4 + 1/3. -/
theorem ms_p_roundtrip_witness :
    (4 ≤ 4 ∧ (4 : Nat) ≤ 2 ^ 25 + 3 ∧ 1 < 3 ∧ (3 : Nat) < 2 ^ 30 ∧
      ((1 : Nat) % 2 = 1 ∨ (3 : Nat) % 2 = 1)) ∧
    p_to_ms (ms_to_p (4, 1, 3)) = (4, 1, 3) :=
  ⟨by decide,
   ms_p_roundtrip 4 1 3 (by decide) (by decide) (by decide) (by decide)
     (by decide) (by omega)⟩

/-- C3 (amended): on the round-trip domain with the integer part at most
2051 — the largest value whose biased encoding fits 18 bits — the encoder's
output satisfies p1 < 2^18, p2 < c and p3 = c.  (For a < 4 the u64 bias
subtraction wraps and p1 lands far above 2^18, see the counterexample; for
b and c both even p3 is the halved denominator.) -/
theorem ms_to_p_bounds (a b c : Nat) (ha : 4 ≤ a) (haU : a ≤ 2051)
    (hbc : b < c) (hc : c < 2 ^ 30) (hodd : b % 2 = 1 ∨ c % 2 = 1)
    (hb0 : b = 0 → c = 1) :
    (ms_to_p (a, b, c)).1 < 2 ^ 18 ∧ (ms_to_p (a, b, c)).2.1 < c ∧
    (ms_to_p (a, b, c)).2.2 = c := by
  by_cases hb : b = 0
  · have hc1 := hb0 hb
    subst hb; subst hc1
    rw [ms_to_p_eq_zero a ha (by omega)]
    refine ⟨?_, ?_, rfl⟩
    · show a * 128 - 512 < 2 ^ 18
      omega
    · show (0 : Nat) < 1
      decide
  · have hb1 : 1 ≤ b := by omega
    have hc0 : 0 < c := by omega
    rw [ms_to_p_eq_pos a b c ha (by omega) hb1 hbc hc hodd]
    have hK : b * 128 / c < 128 :=
      (Nat.div_lt_iff_lt_mul hc0).mpr (by omega : b * 128 < 128 * c)
    refine ⟨?_, ?_, rfl⟩
    · show a * 128 + b * 128 / c - 512 < 2 ^ 18
      generalize b * 128 / c = K at hK ⊢
      omega
    · show b * 128 % c < c
      exact Nat.mod_lt _ hc0

/-- Counterexample for C3 as stated: encoding 0 + 0/1 (a ≥ 0, 0 ≤ b < c,
c ≥ 1) wraps the u64 bias subtraction and yields p1 = 2^32 - 512, far
outside [0, 2^18). -/
theorem ms_to_p_bounds_counterexample :
    ¬ (ms_to_p (0, 0, 1)).1 < 2 ^ 18 := by decide

/-- Witness for C3: the bounds hold at 5 + 1/4. -/
theorem ms_to_p_bounds_witness :
    (4 ≤ 5 ∧ (5 : Nat) ≤ 2051 ∧ 1 < 4 ∧ (4 : Nat) < 2 ^ 30 ∧
      ((1 : Nat) % 2 = 1 ∨ (4 : Nat) % 2 = 1)) ∧
    ((ms_to_p (5, 1, 4)).1 < 2 ^ 18 ∧ (ms_to_p (5, 1, 4)).2.1 < 4 ∧
     (ms_to_p (5, 1, 4)).2.2 = 4) :=
  ⟨by decide,
   ms_to_p_bounds 5 1 4 (by decide) (by decide) (by decide) (by decide)
     (by decide) (by omega)⟩

/-! ## Lemmas about write_multireg64 under the journalling bus -/

lemma journal_reg_write (k : Nat) (e : Int) (s : List (Nat × Nat × Nat))
    (reg val mask : Nat) :
    si5338_reg_write (journalBus k e) s reg val mask =
      if s.length + 1 = k then (s, e) else (s ++ [(reg, val, mask)], 0) := by
  simp only [si5338_reg_write, journalBus]
  by_cases h : mask ≠ 255
  · rw [if_pos h]
  · rw [if_neg h]
    push_neg at h
    rw [h]

/-- A fault-free journalled run of write_multireg64 performs exactly the
writes described by wlist, in order, and returns 0. -/
lemma wm64_journal_ok (e : Int) :
    ∀ (awe : List Nat) (data : Nat) (s : List (Nat × Nat × Nat)),
    write_multireg64 (journalBus 0 e) data awe s = (s ++ wlist data awe, 0) := by
  intro awe
  induction awe with
  | nil => intro data s; simp [write_multireg64, wlist]
  | cons w rest ih =>
    intro data s
    by_cases hm : w % 256 = 0
    · simp only [write_multireg64, wlist, hm]
      simp only [ne_eq, not_true_eq_false, if_false]
      exact ih data s
    · simp only [write_multireg64, wlist, ne_eq, hm, not_false_eq_true,
        if_true, journal_reg_write, Nat.succ_ne_zero, if_false]
      norm_num
      rw [ih]
      simp

/-- A journalled run that fails at the k-th write (1 ≤ k, counting from the
journal already holding s.length writes) applies exactly the writes before
the failing one and stops with the injected error. -/
lemma wm64_journal_fail (e : Int) (he : e < 0) (k : Nat) :
    ∀ (awe : List Nat) (data : Nat) (s : List (Nat × Nat × Nat)),
    s.length < k →
    write_multireg64 (journalBus k e) data awe s =
      if k ≤ s.length + (wlist data awe).length
      then (s ++ (wlist data awe).take (k - s.length - 1), e)
      else (s ++ wlist data awe, 0) := by
  intro awe
  induction awe with
  | nil =>
    intro data s hs
    simp only [wlist, write_multireg64, List.length_nil]
    rw [if_neg (by omega)]
    simp
  | cons w rest ih =>
    intro data s hs
    by_cases hm : w % 256 = 0
    · simp only [write_multireg64, wlist, hm]
      simp only [ne_eq, not_true_eq_false, if_false]
      exact ih data s hs
    · by_cases hk : s.length + 1 = k
      · simp only [write_multireg64, wlist, ne_eq, hm, not_false_eq_true,
          if_true, journal_reg_write, if_pos hk]
        rw [if_pos he]
        rw [if_pos (by simp [List.length_cons]; omega)]
        have h0 : k - s.length - 1 = 0 := by omega
        simp [h0]
      · have hk2 : s.length + 1 < k := by omega
        simp only [write_multireg64, wlist, ne_eq, hm, not_false_eq_true,
          if_true, journal_reg_write, if_neg hk]
        norm_num
        rw [ih _ (s ++ [_]) (by simp; omega)]
        simp only [List.length_append, List.length_cons, List.length_nil,
          List.append_assoc, List.cons_append, List.nil_append, Nat.zero_add]
        by_cases hcond :
            k ≤ s.length + ((wlist (data / 2 ^ consecOnes (w % 256 / 2 ^ lowBit (w % 256))) rest).length + 1)
        · rw [if_pos (by omega), if_pos (by omega)]
          have hsplit : k - s.length - 1 = (k - s.length - 2) + 1 := by omega
          rw [hsplit, List.take_succ_cons]
          have harith : k - (s.length + 1) - 1 = k - s.length - 2 := by omega
          rw [harith]
        · rw [if_neg (by omega), if_neg (by omega)]

/-- C7: for every field descriptor and value, if the k-th register write of
write_multireg64 fails, the k-1 earlier writes remain applied (they are
exactly the first k-1 writes of a fault-free run), no later register is
written, and the operation returns the first error. -/
theorem write_multireg64_partial_commit (awe : List Nat) (data k : Nat)
    (e : Int) (he : e < 0) (hk1 : 1 ≤ k)
    (hk : k ≤ (wlist data awe).length) :
    write_multireg64 (journalBus 0 e) data awe [] = (wlist data awe, 0) ∧
    write_multireg64 (journalBus k e) data awe [] =
      ((wlist data awe).take (k - 1), e) := by
  constructor
  · rw [wm64_journal_ok e awe data []]
    simp
  · rw [wm64_journal_fail e he k awe data [] (by simp; omega)]
    rw [if_pos (by simp; omega)]
    simp

/-- Witness for C7: writing 300000 through the 3-register MS0 P1 descriptor
with the second write failing leaves exactly the first write applied and
returns the error. -/
theorem write_multireg64_partial_commit_witness :
    ((-5 : Int) < 0 ∧ 1 ≤ 2 ∧ 2 ≤ (wlist 300000 [0x35ff, 0x36ff, 0x3703]).length) ∧
    (write_multireg64 (journalBus 0 (-5)) 300000 [0x35ff, 0x36ff, 0x3703] [] =
      (wlist 300000 [0x35ff, 0x36ff, 0x3703], 0) ∧
     write_multireg64 (journalBus 2 (-5)) 300000 [0x35ff, 0x36ff, 0x3703] [] =
      ((wlist 300000 [0x35ff, 0x36ff, 0x3703]).take 1, -5)) :=
  ⟨⟨by decide, by decide, by decide⟩,
   write_multireg64_partial_commit [0x35ff, 0x36ff, 0x3703] 300000 2 (-5)
     (by decide) (by decide) (by decide)⟩

/-- C10: committing parameters with p1 < 512 (ratio below 8) silently
replaces them before writing — p1 becomes 0 (ratio 4) when p1 < 128 and 256
(ratio 6) otherwise, p2 becomes 0, p3 becomes 1 — and writes the channel's
high-speed bit as 1; the committed state decodes to the integer divider 4
or 6.  With p1 ≥ 512 the parameters are written unmodified and the
high-speed bit is written as 0.  Stated over the journalling bus: the first
journal entry is the high-speed-bit write to register 0x33, whose data and
mask are the mask byte of the channel's AWE_MSx_HS word for hs = 1 and data
0 for hs = 0. -/
theorem set_ms_p_highspeed (p : Nat × Nat × Nat) (chn : Nat) (hchn : chn ≤ 3) :
    (p.1 < 512 →
       (set_ms_p (journalBus 0 0) p chn []).1 =
         ((if p.1 < 128 then 0 else 256), 0, 1) ∧
       (set_ms_p (journalBus 0 0) p chn []).2.1.head? =
         some (0x33, awe_ms_hs chn % 256, awe_ms_hs chn % 256) ∧
       (p_to_ms (set_ms_p (journalBus 0 0) p chn []).1 = (4, 0, 1) ∨
        p_to_ms (set_ms_p (journalBus 0 0) p chn []).1 = (6, 0, 1))) ∧
    (512 ≤ p.1 →
       (set_ms_p (journalBus 0 0) p chn []).1 = p ∧
       (set_ms_p (journalBus 0 0) p chn []).2.1.head? =
         some (0x33, 0, awe_ms_hs chn % 256)) ∧
    (set_ms_p (journalBus 0 0) p chn []).2.2 = 0 := by
  interval_cases chn <;>
  · refine ⟨fun h512 => ?_, fun h512ge => ?_, ?_⟩
    · by_cases h128 : p.1 < 128
      · simp only [set_ms_p, if_pos h512, if_pos h128]
        refine ⟨rfl, rfl, Or.inl ?_⟩
        show p_to_ms (0, 0, 1) = (4, 0, 1)
        decide
      · simp only [set_ms_p, if_pos h512, if_neg h128]
        refine ⟨rfl, rfl, Or.inr ?_⟩
        show p_to_ms (256, 0, 1) = (6, 0, 1)
        decide
    · have hne : ¬ p.1 < 512 := by omega
      simp only [set_ms_p, if_neg hne]
      exact ⟨rfl, rfl⟩
    · by_cases h512 : p.1 < 512
      · by_cases h128 : p.1 < 128
        · simp only [set_ms_p, if_pos h512, if_pos h128]; rfl
        · simp only [set_ms_p, if_pos h512, if_neg h128]; rfl
      · simp only [set_ms_p, if_neg h512]; rfl

/-- Witness for C10: committing (100, 5, 7) on channel 2 substitutes the
ratio-4 encoding (0,0,1) with the high-speed bit set. -/
theorem set_ms_p_highspeed_witness :
    ((100 : Nat) < 512 ∧ (2 : Nat) ≤ 3) ∧
    ((set_ms_p (journalBus 0 0) (100, 5, 7) 2 []).1 =
       ((if (100 : Nat) < 128 then 0 else 256), 0, 1) ∧
     (set_ms_p (journalBus 0 0) (100, 5, 7) 2 []).2.1.head? =
       some (0x33, awe_ms_hs 2 % 256, awe_ms_hs 2 % 256) ∧
     (p_to_ms (set_ms_p (journalBus 0 0) (100, 5, 7) 2 []).1 = (4, 0, 1) ∨
      p_to_ms (set_ms_p (journalBus 0 0) (100, 5, 7) 2 []).1 = (6, 0, 1))) :=
  ⟨⟨by decide, by decide⟩,
   (set_ms_p_highspeed (100, 5, 7) 2 (by decide)).1 (by decide)⟩

/-! ## Lemmas about the clkout post-divider search -/

lemma rdiv_master_mem (rr : Nat) :
    (si5338_clkout_round_master rr).1 = 1 ∨
    (si5338_clkout_round_master rr).1 = 2 ∨
    (si5338_clkout_round_master rr).1 = 4 ∨
    (si5338_clkout_round_master rr).1 = 8 ∨
    (si5338_clkout_round_master rr).1 = 16 ∨
    (si5338_clkout_round_master rr).1 = 32 := by
  have hstep : ∀ f out rd, rdiv_master_loop (f + 1) out rd =
      if rd < 32 ∧ out < scaled_max then rdiv_master_loop f (out * 2) (rd * 2)
      else (out, rd) := fun _ _ _ => rfl
  have hzero : ∀ out rd, rdiv_master_loop 0 out rd = (out, rd) :=
    fun _ _ => rfl
  simp only [si5338_clkout_round_master]
  rw [show (5 : Nat) = 4 + 1 from rfl, hstep, show (4 : Nat) = 3 + 1 from rfl,
    hstep, show (3 : Nat) = 2 + 1 from rfl, hstep,
    show (2 : Nat) = 1 + 1 from rfl, hstep, show (1 : Nat) = 0 + 1 from rfl,
    hstep, hzero]
  split_ifs <;> simp_all

/-- absDiff64 agrees with the mathematical absolute error whenever both
operands are below 2^63, i.e. whenever the wrapped u64 difference stays in
the representable signed range. -/
lemma absDiff64_eq (a b : Nat) (ha : a < 2 ^ 63) (hb : b < 2 ^ 63) :
    absDiff64 a b = absErr a b := by
  simp only [absDiff64, absErr]
  split_ifs <;> omega

/-- C8 (amended): for every u64 parent rate and requested rate, the halving
search used by si5338_clkout_set_rate and the non-master branch of
si5338_clkout_round_rate selects a divider in {1, 2, 4, 8, 16} — never 32,
because the final halving that undoes the last speculative doubling also
fires when the loop stops at the r_div < 32 bound — and the master branch
of round_rate picks its divider from {1, 2, 4, 8, 16, 32}.  When both rates
are below 2^63 — so the kernel abs() of the wrapped u64 difference is the
true absolute error at every step — the selected divider minimizes
|parent_rate / d - rate| over {1, 2, 4, 8, 16}.  (For larger inputs the
wrapped abs() itself drives the search: at parent 2^64 - 1, rate 0 the code
sees error 1 at divider 1 and stops there.) -/
theorem clkout_rdiv_spec (parent rate : Nat) (hp : parent < 2 ^ 64)
    (hr : rate < 2 ^ 64) :
    ((si5338_clkout_rdiv parent rate = 1 ∨ si5338_clkout_rdiv parent rate = 2 ∨
      si5338_clkout_rdiv parent rate = 4 ∨ si5338_clkout_rdiv parent rate = 8 ∨
      si5338_clkout_rdiv parent rate = 16) ∧
     (parent < 2 ^ 63 → rate < 2 ^ 63 →
      (absErr (parent / si5338_clkout_rdiv parent rate) rate ≤
        absErr (parent / 1) rate ∧
       absErr (parent / si5338_clkout_rdiv parent rate) rate ≤
        absErr (parent / 2) rate ∧
       absErr (parent / si5338_clkout_rdiv parent rate) rate ≤
        absErr (parent / 4) rate ∧
       absErr (parent / si5338_clkout_rdiv parent rate) rate ≤
        absErr (parent / 8) rate ∧
       absErr (parent / si5338_clkout_rdiv parent rate) rate ≤
        absErr (parent / 16) rate))) ∧
    (∀ rr, (si5338_clkout_round_master rr).1 = 1 ∨
      (si5338_clkout_round_master rr).1 = 2 ∨
      (si5338_clkout_round_master rr).1 = 4 ∨
      (si5338_clkout_round_master rr).1 = 8 ∨
      (si5338_clkout_round_master rr).1 = 16 ∨
      (si5338_clkout_round_master rr).1 = 32) := by
  have h5 : ∀ nr rd pe, rdiv_loop rate 5 nr rd pe =
      if absDiff64 (nr / 2) rate < pe ∧ rd * 2 < 32 then
        rdiv_loop rate 4 (nr / 2) (rd * 2) (absDiff64 (nr / 2) rate)
      else rd * 2 := fun _ _ _ => rfl
  have h4 : ∀ nr rd pe, rdiv_loop rate 4 nr rd pe =
      if absDiff64 (nr / 2) rate < pe ∧ rd * 2 < 32 then
        rdiv_loop rate 3 (nr / 2) (rd * 2) (absDiff64 (nr / 2) rate)
      else rd * 2 := fun _ _ _ => rfl
  have h3 : ∀ nr rd pe, rdiv_loop rate 3 nr rd pe =
      if absDiff64 (nr / 2) rate < pe ∧ rd * 2 < 32 then
        rdiv_loop rate 2 (nr / 2) (rd * 2) (absDiff64 (nr / 2) rate)
      else rd * 2 := fun _ _ _ => rfl
  have h2 : ∀ nr rd pe, rdiv_loop rate 2 nr rd pe =
      if absDiff64 (nr / 2) rate < pe ∧ rd * 2 < 32 then
        rdiv_loop rate 1 (nr / 2) (rd * 2) (absDiff64 (nr / 2) rate)
      else rd * 2 := fun _ _ _ => rfl
  have h1 : ∀ nr rd pe, rdiv_loop rate 1 nr rd pe =
      if absDiff64 (nr / 2) rate < pe ∧ rd * 2 < 32 then
        rdiv_loop rate 0 (nr / 2) (rd * 2) (absDiff64 (nr / 2) rate)
      else rd * 2 := fun _ _ _ => rfl
  have h0 : ∀ nr rd pe, rdiv_loop rate 0 nr rd pe = rd := fun _ _ _ => rfl
  refine ⟨⟨?_, ?_⟩, fun rr => rdiv_master_mem rr⟩
  · simp only [si5338_clkout_rdiv]
    rw [h5, h4, h3, h2, h1, h0]
    split_ifs <;> omega
  · intro hp63 hr63
    have e0 : absDiff64 parent rate = absErr parent rate :=
      absDiff64_eq _ _ hp63 hr63
    have e1 : absDiff64 (parent / 2) rate = absErr (parent / 2) rate :=
      absDiff64_eq _ _ (by omega) hr63
    have e2 : absDiff64 (parent / 2 / 2) rate =
        absErr (parent / 2 / 2) rate :=
      absDiff64_eq _ _ (by omega) hr63
    have e3 : absDiff64 (parent / 2 / 2 / 2) rate =
        absErr (parent / 2 / 2 / 2) rate :=
      absDiff64_eq _ _ (by omega) hr63
    have e4 : absDiff64 (parent / 2 / 2 / 2 / 2) rate =
        absErr (parent / 2 / 2 / 2 / 2) rate :=
      absDiff64_eq _ _ (by omega) hr63
    have e5 : absDiff64 (parent / 2 / 2 / 2 / 2 / 2) rate =
        absErr (parent / 2 / 2 / 2 / 2 / 2) rate :=
      absDiff64_eq _ _ (by omega) hr63
    simp only [si5338_clkout_rdiv]
    rw [h5, h4, h3, h2, h1, h0, e0, e1, e2, e3, e4, e5]
    simp only [absErr]
    split_ifs <;> omega

/-- Counterexample for C8 as stated: at parent rate 32 and requested rate 1
the halving search stops at the r_div < 32 bound and reverts to divider 16
(error 1), even though divider 32 — a member of the claimed search set —
gives error 0; the selection does not minimize the error over
{1,2,4,8,16,32}. -/
theorem clkout_rdiv_counterexample :
    si5338_clkout_rdiv 32 1 = 16 ∧
    absErr (32 / 32) 1 < absErr (32 / 16) 1 := by decide

/-- Witness for C8: at parent rate 100, requested rate 7 (both far below
2^63) the search selects divider 16, which minimizes the error over
{1, 2, 4, 8, 16}. -/
theorem clkout_rdiv_spec_witness :
    ((si5338_clkout_rdiv 100 7 = 1 ∨ si5338_clkout_rdiv 100 7 = 2 ∨
      si5338_clkout_rdiv 100 7 = 4 ∨ si5338_clkout_rdiv 100 7 = 8 ∨
      si5338_clkout_rdiv 100 7 = 16) ∧
     (absErr (100 / si5338_clkout_rdiv 100 7) 7 ≤ absErr (100 / 1) 7 ∧
      absErr (100 / si5338_clkout_rdiv 100 7) 7 ≤ absErr (100 / 2) 7 ∧
      absErr (100 / si5338_clkout_rdiv 100 7) 7 ≤ absErr (100 / 4) 7 ∧
      absErr (100 / si5338_clkout_rdiv 100 7) 7 ≤ absErr (100 / 8) 7 ∧
      absErr (100 / si5338_clkout_rdiv 100 7) 7 ≤ absErr (100 / 16) 7)) := by
  have h := clkout_rdiv_spec 100 7 (by decide) (by decide)
  exact ⟨h.1.1, h.1.2 (by decide) (by decide)⟩

/-! ## FieldCodec round trip -/

def awe_ms0_p1 : List Nat := [0x35ff, 0x36ff, 0x3703]

lemma and_255 (x : Nat) : x &&& 255 = x % 256 := by
  have h := Nat.and_pow_two_sub_one_eq_mod x 8
  norm_num at h
  exact h

lemma and_3 (x : Nat) : x &&& 3 = x % 4 := by
  have h := Nat.and_pow_two_sub_one_eq_mod x 2
  norm_num at h
  exact h

lemma or_add_disjoint (a b n : Nat) (ha : a < 2 ^ n) :
    a ||| b * 2 ^ n = a + b * 2 ^ n := by
  calc a ||| b * 2 ^ n = 2 ^ n * b ||| a := by rw [Nat.or_comm, Nat.mul_comm]
  _ = 2 ^ n * b + a := (Nat.mul_add_lt_is_or ha b).symm
  _ = a + b * 2 ^ n := by ring

lemma or_add_256 (a b : Nat) (ha : a < 256) : a ||| b * 256 = a + b * 256 := by
  have h := or_add_disjoint a b 8 (by omega)
  norm_num at h
  exact h

lemma or_add_65536 (a b : Nat) (ha : a < 65536) :
    a ||| b * 65536 = a + b * 65536 := by
  have h := or_add_disjoint a b 16 (by omega)
  norm_num at h
  exact h

/-- C6: for the 3-register field descriptor with masks {0xFF, 0xFF, 0x03}
(18 bits, the MS0 P1 field at registers 0x35..0x37), over a register store
where reads return previously written values and from any initial store,
writing any v < 2^18 with write_multireg64 and reading it back with
read_multireg64 yields exactly v. -/
theorem multireg_roundtrip (v : Nat) (hv : v < 2 ^ 18) (s0 : Nat → Nat) :
    read_multireg64 pureBus awe_ms0_p1
      (write_multireg64 pureBus v awe_ms0_p1 s0).1 = (0, v) := by
  have hlb255 : lowBit 255 = 0 := rfl
  have hco : consecOnes 255 = 8 := rfl
  have hlb3 : lowBit 3 = 0 := rfl
  have hco3 : consecOnes 3 = 2 := rfl
  simp only [awe_ms0_p1, write_multireg64, read_multireg64, read_multireg64_go,
    si5338_reg_write, pureBus]
  norm_num [hlb255, hco, hlb3, hco3]
  rw [and_255, and_255]
  have hor : s0 55 % 256 &&& (255 ^^^ 3) ||| v / 256 / 256 % 256 &&& 3 < 256 := by
    have hxor : (255 : Nat) ^^^ 3 < 2 ^ 8 :=
      Nat.xor_lt_two_pow (by norm_num) (by norm_num)
    have h1 : s0 55 % 256 &&& (255 ^^^ 3) < 2 ^ 8 := Nat.and_lt_two_pow _ hxor
    have h2 : v / 256 / 256 % 256 &&& 3 < 2 ^ 8 :=
      Nat.and_lt_two_pow _ (by norm_num)
    have := Nat.or_lt_two_pow h1 h2
    norm_num at this
    exact this
  rw [Nat.mod_eq_of_lt hor]
  rw [Nat.and_distrib_right, Nat.and_assoc, Nat.and_assoc]
  rw [show ((255 ^^^ 3) &&& 3) = 0 by
    rw [Nat.and_xor_distrib_right, and_3, and_3]
    norm_num]
  rw [Nat.and_zero, Nat.zero_or]
  rw [show ((3 : Nat) &&& 3) = 3 by rw [and_3]]
  rw [and_3]
  rw [Nat.mod_mod_of_dvd _ (by norm_num : (4 : Nat) ∣ 256)]
  rw [or_add_256 _ _ (by omega), or_add_65536 _ _ (by omega)]
  omega

/-- Witness for C6: the round trip at v = 123456 from the all-zero store. -/
theorem multireg_roundtrip_witness :
    ((123456 : Nat) < 2 ^ 18) ∧
    read_multireg64 pureBus awe_ms0_p1
      (write_multireg64 pureBus 123456 awe_ms0_p1 (fun _ => 0)).1 =
      (0, 123456) :=
  ⟨by decide, multireg_roundtrip 123456 (by decide) (fun _ => 0)⟩
